import Mathlib

/-!
Verification of the task-lifecycle runtime of the mst-async-task repository.

The embedding follows the newest generation of the source:
  - `runTask` (src/unnamed/part_002, lines 74-161): the orchestration of one
    run of a task body, including the synchronous prefix, the abort handler,
    the resolve-once settlement promise, and the guarded finalization write.
  - the `AsyncTask` model (src/unnamed/part_002, lines 169-238): status and
    error fields plus the `abort`, `reset` and `_resolve` actions.
  - the exec gate (src/unnamed/part_002, lines 92-119).
  - `AsyncTaskResult` and `AsyncTaskAbortError`
    (src/packages/mst-async-task/src/lib.ts).

The `result` field of the record and the `value` field of the settlement
belong to the final generation of AsyncTask.ts and lib.ts, whose tests are in
the repository but whose definitions are not; they are modelled from the spec
where noted. Asynchrony is embedded by making every synchronous block of the
source one state-transformer function; interleavings of the cooperative
scheduler are sequences of applications of these functions.
-/

namespace MstAsyncTask

/-- The five statuses of the AsyncTaskStatus enumeration (lib.ts). -/
inductive Status where
  | INIT
  | PENDING
  | COMPLETE
  | FAILED
  | ABORTED
deriving DecidableEq, Repr

/-- Values returned by task bodies; the claims do not depend on their shape,
so natural numbers stand in for arbitrary JavaScript values. -/
abbrev Val := Nat

/-- Errors. `abortErr` embeds AsyncTaskAbortError (lib.ts); `other n` stands
for any other thrown error. `instanceof AsyncTaskAbortError` is `isAbort`. -/
inductive Err where
  | abortErr
  | other (code : Nat)
deriving DecidableEq, Repr

/-- Embeds the runtime test `err instanceof AsyncTaskAbortError`. -/
def Err.isAbort : Err → Bool
  | Err.abortErr => true
  | Err.other _ => false

/-- The settlement object returned by runTask: class AsyncTaskResult of
src/packages/mst-async-task/src/lib.ts, with the `value` field added in the
final generation. Modelled from the spec: the settlement exposes terminal
status plus optional error and result value. -/
structure AsyncTaskResult where
  status : Status
  error : Option Err
  value : Option Val
deriving DecidableEq, Repr

/-- The AsyncTask record (src/unnamed/part_002, lines 169-242): `status` and
`error` are model fields; `hasController` is the presence of the volatile
`_abortController` property. `result` is modelled from the spec: optional
value produced by the task body, stored by the final generation of
`_resolve` and cleared by `reset`. -/
structure TaskRecord where
  status : Status
  error : Option Err
  result : Option Val
  hasController : Bool
deriving DecidableEq, Repr

/-- The `pending` view of the AsyncTask model. -/
def TaskRecord.pending (t : TaskRecord) : Bool :=
  decide (t.status = Status.PENDING)

/-- Per-run volatile state inside one call of runTask: the abort flag of the
AbortController signal created at line 78, whether the abortHandler of line
131 is currently attached (line 142 attaches it, `done` removes it), and the
resolve-once settlement of the promise at line 125. -/
structure RunState where
  sigAborted : Bool
  handlerActive : Bool
  settlement : Option AsyncTaskResult
deriving DecidableEq, Repr

/-- The world: one task record, the liveness of its owning container
(`isAlive` of mobx-state-tree), the states of all runs ever started on the
task (indexed by run id), and the id of the run whose controller is stored in
`_abortController` when `hasController` is set. -/
structure World where
  task : TaskRecord
  alive : Bool
  runs : Nat → RunState
  active : Nat

/-- Embeds `_resolve(status, error, result)` (src/unnamed/part_002 lines
231-235): writes status and error and deletes `_abortController`. Storing the
third argument in `result` is modelled from the spec: the final generation of
the action records the value produced by the task body. -/
def resolveRec (s : AsyncTaskResult) : TaskRecord :=
  { status := s.status, error := s.error, result := s.value, hasController := false }

/-- Embeds `done` (src/unnamed/part_002 lines 126-129): removes the abort
listener and resolves the settlement promise; a promise resolves only once,
so an existing settlement is kept. -/
def doneSettle (s : AsyncTaskResult) (r : RunState) : RunState :=
  { r with handlerActive := false, settlement := some (r.settlement.getD s) }

/-- The settlement produced by the abortHandler: status ABORTED with a fresh
AsyncTaskAbortError (src/unnamed/part_002 lines 131-140). -/
def abortedSettlement : AsyncTaskResult :=
  { status := Status.ABORTED, error := some Err.abortErr, value := none }

/-- Embeds `abortController.abort()` for run `i`: sets the abort flag of the
signal and synchronously fires the attached abortHandler (src/unnamed/part_002
lines 131-140), which writes the record as ABORTED when the task is alive and
pending, then calls `done`. Aborting an already-aborted controller fires
nothing. -/
def abortRunId (i : Nat) (w : World) : World :=
  let r := w.runs i
  if r.sigAborted then w
  else
    let r1 : RunState := { r with sigAborted := true }
    if r1.handlerActive then
      let t := if w.alive && w.task.pending then resolveRec abortedSettlement else w.task
      { w with task := t, runs := Function.update w.runs i (doneSettle abortedSettlement r1) }
    else
      { w with runs := Function.update w.runs i r1 }

/-- Embeds the `abort` action of the AsyncTask model (src/unnamed/part_002
lines 215-220): aborts the controller of the active run when one is stored. -/
def taskAbort (w : World) : World :=
  if w.task.hasController then abortRunId w.active w else w

/-- Embeds the `reset` action (src/unnamed/part_002 lines 222-226): performs
`abort()` and then synchronously writes status INIT and clears error.
Clearing `result` is modelled from the spec: reset clears the result field of
the final generation. -/
def reset (w : World) : World :=
  let w1 := taskAbort w
  { w1 with task := { w1.task with status := Status.INIT, error := none, result := none } }

/-- The run state of a freshly created run: signal not aborted, abortHandler
attached (line 142 runs during the synchronous prefix), settlement pending. -/
def freshRun : RunState :=
  { sigAborted := false, handlerActive := true, settlement := none }

/-- Embeds the synchronous prefix of `runTask` for a new run `i`
(src/unnamed/part_002 lines 78-142): abort and delete any existing controller
(lines 81-84), then synchronously set status PENDING, clear error, store the
new controller (lines 121-123) and attach the abortHandler (line 142). Note
that the prefix does not write the `result` field. -/
def runStart (i : Nat) (w : World) : World :=
  let w1 :=
    if w.task.hasController then
      let w2 := abortRunId w.active w
      { w2 with task := { w2.task with hasController := false } }
    else w
  { w1 with
    task := { status := Status.PENDING, error := none,
              result := w1.task.result, hasController := true },
    runs := Function.update w1.runs i freshRun,
    active := i }

/-- How the driving of a task body can end: a normal return carrying an
optional value, or a thrown error. -/
inductive BodyOutcome where
  | ret (v : Option Val)
  | thrown (e : Err)
deriving DecidableEq, Repr

/-- Embeds the terminal computation of `runTask` (src/unnamed/part_002 lines
144-153): a normal return gives COMPLETE with the returned value; a thrown
AsyncTaskAbortError gives ABORTED; any other thrown error gives FAILED. -/
def terminalOf : BodyOutcome → AsyncTaskResult
  | BodyOutcome.ret v => { status := Status.COMPLETE, error := none, value := v }
  | BodyOutcome.thrown e =>
    if e.isAbort then { status := Status.ABORTED, error := some e, value := none }
    else { status := Status.FAILED, error := some e, value := none }

/-- Embeds the completion of run `i` with body outcome `o`: `done` settles
the promise (resolve-once), and the finalization write of src/unnamed/part_002
lines 156-158 applies the awaited settlement to the record if and only if the
task is alive, still pending, and the signal of this run is not aborted. -/
def finishRun (i : Nat) (o : BodyOutcome) (w : World) : World :=
  let r := w.runs i
  let s := r.settlement.getD (terminalOf o)
  let rFin : RunState := { r with handlerActive := false, settlement := some s }
  let t := if w.alive && w.task.pending && !r.sigAborted then resolveRec s else w.task
  { w with task := t, runs := Function.update w.runs i rFin }

/-- The value a gated callback settles to, as seen by the `await` inside
`exec` (src/unnamed/part_002 line 102): either the AsyncTaskResult of a nested
runTask call, or a plain value. -/
inductive Awaited where
  | res (s : AsyncTaskResult)
  | plain (v : Option Val)
deriving DecidableEq, Repr

/-- Embeds the unwrap step of `exec` (src/unnamed/part_002 lines 104-111): a
settlement carrying an error is re-thrown; a settlement without an error
yields `undefined`; a plain value is returned unchanged. -/
def execAwait : Awaited → Except Err (Option Val)
  | Awaited.res s =>
    match s.error with
    | some e => Except.error e
    | none => Except.ok none
  | Awaited.plain v => Except.ok v

/-- Embeds a full `exec` call (src/unnamed/part_002 lines 92-119): the
precondition of lines 93-95 throws an AsyncTaskAbortError when the task is
not alive, not pending, or the signal of the run is aborted; otherwise the
callback runs and its awaited outcome is unwrapped. The boolean records
whether the callback was invoked. -/
def execCall (alive pending sigAborted : Bool) (a : Awaited) :
    Except Err (Option Val) × Bool :=
  if !alive || !pending || sigAborted then (Except.error Err.abortErr, false)
  else (execAwait a, true)

/-- A forest of cancellation scopes in first-child/next-sibling form. A node
is one AbortController signal: its flag, the scopes chained under it (each
created by a runTask call started inside an exec window of this scope, with a
listener on this signal aborting it — src/unnamed/part_002 lines 86-90), and
its sibling scopes in the enclosing forest. -/
inductive ScopeTree where
  | nil : ScopeTree
  | node (aborted : Bool) (children : ScopeTree) (sibling : ScopeTree)
deriving DecidableEq, Repr

/-- Aborts every scope in a forest: when a scope aborts, the chained listener
registered at src/unnamed/part_002 lines 87-89 aborts each child controller
synchronously, which recursively fires the listeners of the grandchildren. -/
def abortForest : ScopeTree → ScopeTree
  | ScopeTree.nil => ScopeTree.nil
  | ScopeTree.node _ c s => ScopeTree.node true (abortForest c) (abortForest s)

/-- Aborting one scope: its own flag is set and the abort event cascades
through its chained children, depth-first; sibling scopes are untouched. -/
def abortScope : ScopeTree → ScopeTree
  | ScopeTree.nil => ScopeTree.nil
  | ScopeTree.node _ c s => ScopeTree.node true (abortForest c) s

/-- Every scope in the forest has its aborted flag set. -/
def allAborted : ScopeTree → Bool
  | ScopeTree.nil => true
  | ScopeTree.node a c s => a && allAborted c && allAborted s

/-- The root scope and all of its transitive descendants (not its siblings)
have their aborted flags set. -/
def selfAndDescendantsAborted : ScopeTree → Bool
  | ScopeTree.nil => true
  | ScopeTree.node a c _ => a && allAborted c

/-- The operations a caller or the runtime can apply to a task record: the
synchronous prefix of a new run, the `abort` action, the `reset` action, and
the finalization of a run with some body outcome. -/
inductive Op where
  | start (i : Nat)
  | abortAct
  | resetAct
  | finish (i : Nat) (o : BodyOutcome)

/-- Applies one operation to the world. -/
def applyOp : Op → World → World
  | Op.start i, w => runStart i w
  | Op.abortAct, w => taskAbort w
  | Op.resetAct, w => reset w
  | Op.finish i o, w => finishRun i o w

/-- The data-model invariant of a task record claimed by the spec: error is
populated iff the status is FAILED or ABORTED, at most one of error and
result is populated, and the controller handle is present iff the status is
PENDING. -/
def RecordInv (t : TaskRecord) : Prop :=
  (t.error.isSome ↔ (t.status = Status.FAILED ∨ t.status = Status.ABORTED)) ∧
  ¬(t.error.isSome = true ∧ t.result.isSome = true) ∧
  (t.hasController = true ↔ t.status = Status.PENDING)

/-- Well-formedness of a settlement: its status is terminal, error is
populated iff it is FAILED or ABORTED, and a value is only carried by a
COMPLETE settlement. -/
def WFSettlement (s : AsyncTaskResult) : Prop :=
  (s.error.isSome ↔ (s.status = Status.FAILED ∨ s.status = Status.ABORTED)) ∧
  (s.value.isSome = true → s.status = Status.COMPLETE) ∧
  (s.status = Status.COMPLETE ∨ s.status = Status.FAILED ∨ s.status = Status.ABORTED)

/-- Reachable-state invariant of one run: any settlement is well-formed, and
once the signal is aborted the abortHandler has been detached (the abort
event fires it exactly once and `done` removes it). -/
def RunInv (r : RunState) : Prop :=
  (∀ s, r.settlement = some s → WFSettlement s) ∧
  (r.sigAborted = true → r.handlerActive = false)

/-- World invariant: the record invariant, every run well-formed, and while a
controller is stored its run still has the abortHandler attached. -/
def WorldInv (w : World) : Prop :=
  RecordInv w.task ∧ (∀ i, RunInv (w.runs i)) ∧
  (w.task.hasController = true → (w.runs w.active).handlerActive = true)

/-- Every scope of a forest is aborted after `abortForest`. -/
theorem allAborted_abortForest (t : ScopeTree) : allAborted (abortForest t) = true := by
  induction t with
  | nil => rfl
  | node a c s ihc ihs => simp [abortForest, allAborted, ihc, ihs]

/-- Claim C7: aborting the scope of a task sets the aborted flag of the scope
itself and of every descendant scope created by tasks transitively started
inside its exec calls, and the propagation is one synchronous depth-first
cascade: the state returned by the abort operation already has every
descendant flag set. -/
theorem claim_C7 (t : ScopeTree) : selfAndDescendantsAborted (abortScope t) = true := by
  cases t with
  | nil => rfl
  | node a c s => simp [abortScope, selfAndDescendantsAborted, allAborted_abortForest]

/-- Claim C3 (amended): for every task record and run id, the synchronous
prefix of run() sets the status of the record to PENDING, clears error, and
installs the new active scope with its abort handler before the first
suspension point, so a caller inspecting the record immediately after run()
returns control observes PENDING; the result field is left unchanged. -/
theorem claim_C3 (w : World) (i : Nat) :
    (runStart i w).task.status = Status.PENDING ∧
    (runStart i w).task.error = none ∧
    (runStart i w).task.hasController = true ∧
    (runStart i w).active = i ∧
    (runStart i w).runs i = freshRun := by
  refine ⟨rfl, rfl, rfl, rfl, ?_⟩
  simp [runStart]

/-- A concrete world whose record has settled COMPLETE with result 7 and
whose run 0 has finished. -/
def wCex : World :=
  { task := { status := Status.COMPLETE, error := none, result := some 7,
              hasController := false },
    alive := true,
    runs := fun _ => { sigAborted := false, handlerActive := false, settlement := none },
    active := 0 }

/-- Claim C3 counterexample: starting a new run on a record that completed
with result 7 leaves the result field populated, refuting the claim that
run() clears result before the first suspension point. -/
theorem claim_C3_cex :
    (runStart 1 wCex).task.status = Status.PENDING ∧
    (runStart 1 wCex).task.result ≠ none := by
  exact ⟨rfl, by decide⟩

/-- Claim C8 counterexample: after re-running a record that completed with
result 7, the result field is populated while the status is PENDING, refuting
the claim that the result field is present if and only if the status is
COMPLETE. -/
theorem claim_C8_cex :
    ((runStart 1 wCex).task.result).isSome = true ∧
    (runStart 1 wCex).task.status ≠ Status.COMPLETE := by
  exact ⟨rfl, by decide⟩

/-- Claim C6: whenever the owning container is not live, or the record is not
PENDING, or the signal of the run is already aborted, exec throws an
AsyncTaskAbortError immediately and the supplied callback is never invoked,
so no gated mutation runs after cancellation. -/
theorem claim_C6 (alive pending sigAborted : Bool) (a : Awaited)
    (h : alive = false ∨ pending = false ∨ sigAborted = true) :
    execCall alive pending sigAborted a = (Except.error Err.abortErr, false) := by
  rcases h with h | h | h <;> subst h <;> simp [execCall]

/-- Claim C6 witness: exec on an aborted signal with a live pending task
throws the cancellation error without invoking the callback. -/
theorem claim_C6_witness :
    ((true : Bool) = false ∨ (true : Bool) = false ∨ (true : Bool) = true) ∧
    execCall true true true (Awaited.plain (some 4)) =
      (Except.error Err.abortErr, false) := by
  exact ⟨by decide, claim_C6 true true true (Awaited.plain (some 4)) (by decide)⟩

/-- Claim C10: a nested task invoked through exec whose settlement carries no
failure makes exec resolve to undefined, never to the settlement or to the
value the nested task produced. -/
theorem claim_C10 (s : AsyncTaskResult) (h : s.error = none) :
    execAwait (Awaited.res s) = Except.ok none := by
  simp [execAwait, h]

/-- Claim C10 witness: a COMPLETE settlement carrying value 5 is unwrapped by
exec to undefined, not to 5. -/
theorem claim_C10_witness :
    (AsyncTaskResult.mk Status.COMPLETE none (some 5)).error = none ∧
    execAwait (Awaited.res (AsyncTaskResult.mk Status.COMPLETE none (some 5))) =
      Except.ok none := by
  exact ⟨rfl, claim_C10 (AsyncTaskResult.mk Status.COMPLETE none (some 5)) rfl⟩

/-- Claim C1: aborting the scope of a run while the record is PENDING makes
the settlement of the run ABORTED with a CancellationError, writes the record
to ABORTED synchronously, and the later completion of the body - whether a
normal return, a thrown cancellation error, or any other thrown error -
changes neither the record nor the settlement. -/
theorem claim_C1 (w : World) (o : BodyOutcome)
    (halive : w.alive = true)
    (hpend : w.task.status = Status.PENDING)
    (hctrl : w.task.hasController = true)
    (hhand : (w.runs w.active).handlerActive = true)
    (hsig : (w.runs w.active).sigAborted = false)
    (hset : (w.runs w.active).settlement = none) :
    ((taskAbort w).runs w.active).settlement = some abortedSettlement ∧
    (taskAbort w).task.status = Status.ABORTED ∧
    (taskAbort w).task.error = some Err.abortErr ∧
    (finishRun w.active o (taskAbort w)).task = (taskAbort w).task ∧
    ((finishRun w.active o (taskAbort w)).runs w.active).settlement =
      some abortedSettlement := by
  have habort : taskAbort w =
      { w with task := resolveRec abortedSettlement,
               runs := Function.update w.runs w.active
                 (doneSettle abortedSettlement
                   { w.runs w.active with sigAborted := true }) } := by
    simp [taskAbort, abortRunId, hctrl, hsig, hhand, halive, TaskRecord.pending, hpend]
  refine ⟨?_, ?_, ?_, ?_, ?_⟩
  · simp [habort, doneSettle, hset]
  · simp [habort, resolveRec, abortedSettlement]
  · simp [habort, resolveRec, abortedSettlement]
  · simp [habort, finishRun, doneSettle, resolveRec, abortedSettlement, TaskRecord.pending]
  · simp [habort, finishRun, doneSettle, hset]

/-- Claim C1 witness: aborting a live pending run settles it ABORTED with the
cancellation error and the record stays ABORTED after the body finishes. -/
theorem claim_C1_witness :
    (let w0 : World :=
      { task := { status := Status.PENDING, error := none, result := none,
                  hasController := true },
        alive := true,
        runs := fun _ => { sigAborted := false, handlerActive := true, settlement := none },
        active := 0 }
     ((taskAbort w0).runs 0).settlement = some abortedSettlement ∧
     (taskAbort w0).task.status = Status.ABORTED ∧
     (taskAbort w0).task.error = some Err.abortErr ∧
     (finishRun 0 (BodyOutcome.ret (some 5)) (taskAbort w0)).task = (taskAbort w0).task ∧
     ((finishRun 0 (BodyOutcome.ret (some 5)) (taskAbort w0)).runs 0).settlement =
       some abortedSettlement) := by
  exact claim_C1 _ (BodyOutcome.ret (some 5)) rfl rfl rfl rfl rfl rfl

/-- Claim C2: calling reset() on a PENDING record synchronously leaves it at
INIT with error and result cleared, and the later settlement of the aborted
in-flight run never overwrites that INIT with any other status. -/
theorem claim_C2 (w : World) (o : BodyOutcome)
    (halive : w.alive = true)
    (hpend : w.task.status = Status.PENDING)
    (hctrl : w.task.hasController = true)
    (hhand : (w.runs w.active).handlerActive = true)
    (hsig : (w.runs w.active).sigAborted = false) :
    (reset w).task.status = Status.INIT ∧
    (reset w).task.error = none ∧
    (reset w).task.result = none ∧
    (finishRun w.active o (reset w)).task = (reset w).task := by
  have habort : taskAbort w =
      { w with task := resolveRec abortedSettlement,
               runs := Function.update w.runs w.active
                 (doneSettle abortedSettlement
                   { w.runs w.active with sigAborted := true }) } := by
    simp [taskAbort, abortRunId, hctrl, hsig, hhand, halive, TaskRecord.pending, hpend]
  refine ⟨?_, ?_, ?_, ?_⟩
  · simp [reset]
  · simp [reset]
  · simp [reset]
  · simp [reset, habort, finishRun, doneSettle, resolveRec, abortedSettlement,
      TaskRecord.pending]

/-- Claim C2 witness: resetting a live pending run leaves the record at INIT
with error and result cleared, and the finishing of the aborted run does not
overwrite it. -/
theorem claim_C2_witness :
    (let w0 : World :=
      { task := { status := Status.PENDING, error := none, result := none,
                  hasController := true },
        alive := true,
        runs := fun _ => { sigAborted := false, handlerActive := true, settlement := none },
        active := 0 }
     (reset w0).task.status = Status.INIT ∧
     (reset w0).task.error = none ∧
     (reset w0).task.result = none ∧
     (finishRun 0 (BodyOutcome.thrown Err.abortErr) (reset w0)).task = (reset w0).task) := by
  exact claim_C2 _ (BodyOutcome.thrown Err.abortErr) rfl rfl rfl rfl rfl

/-- The terminal status computed from a body outcome is never PENDING. -/
theorem terminalOf_ne_pending (o : BodyOutcome) :
    (terminalOf o).status ≠ Status.PENDING := by
  cases o with
  | ret v => simp [terminalOf]
  | thrown e => by_cases h : e.isAbort = true <;> simp [terminalOf, h]

/-- Finishing a live, still-pending, un-aborted run whose body threw a
non-cancellation error writes the record FAILED with that error and settles
the run FAILED with that error. -/
theorem finishRun_thrown (w : World) (i : Nat) (e : Err) (he : e.isAbort = false)
    (halive : w.alive = true)
    (hpend : w.task.status = Status.PENDING)
    (hsig : (w.runs i).sigAborted = false)
    (hset : (w.runs i).settlement = none) :
    (finishRun i (BodyOutcome.thrown e) w).task =
      { status := Status.FAILED, error := some e, result := none,
        hasController := false } ∧
    ((finishRun i (BodyOutcome.thrown e) w).runs i).settlement =
      some { status := Status.FAILED, error := some e, value := none } := by
  constructor
  · simp [finishRun, terminalOf, he, hsig, hset, halive, TaskRecord.pending, hpend,
      resolveRec]
  · simp [finishRun, terminalOf, he, hset]

/-- Finishing any run leaves the record untouched when the record is no
longer pending: the stale-run guard of src/unnamed/part_002 line 156. -/
theorem finishRun_task_of_not_pending (w : World) (i : Nat) (o : BodyOutcome)
    (h : w.task.pending = false) : (finishRun i o w).task = w.task := by
  simp [finishRun, h]

/-- Claim C4: calling run() again while a run is PENDING first aborts the
scope of the existing run without waiting for it (its settlement becomes
ABORTED at that instant), installs the new run with the record PENDING, lets
the new run proceed to its own natural terminal status, and the late
completion of the aborted previous run changes nothing. -/
theorem claim_C4 (w : World) (i : Nat) (o oPrev : BodyOutcome)
    (halive : w.alive = true)
    (hpend : w.task.status = Status.PENDING)
    (hctrl : w.task.hasController = true)
    (hhand : (w.runs w.active).handlerActive = true)
    (hsig : (w.runs w.active).sigAborted = false)
    (hset : (w.runs w.active).settlement = none)
    (hne : i ≠ w.active) :
    ((runStart i w).runs w.active).settlement = some abortedSettlement ∧
    (runStart i w).task.status = Status.PENDING ∧
    (finishRun i o (runStart i w)).task = resolveRec (terminalOf o) ∧
    ((finishRun i o (runStart i w)).runs i).settlement = some (terminalOf o) ∧
    (finishRun w.active oPrev (finishRun i o (runStart i w))).task =
      (finishRun i o (runStart i w)).task := by
  have h1 : runStart i w =
      { task := { status := Status.PENDING, error := none, result := none,
                  hasController := true },
        alive := w.alive,
        runs := Function.update
          (Function.update w.runs w.active
            (doneSettle abortedSettlement { w.runs w.active with sigAborted := true }))
          i freshRun,
        active := i } := by
    simp [runStart, abortRunId, hctrl, hsig, hhand, halive, TaskRecord.pending, hpend,
      resolveRec, abortedSettlement]
  have h3 : (finishRun i o (runStart i w)).task = resolveRec (terminalOf o) := by
    simp [h1, finishRun, freshRun, halive, TaskRecord.pending]
  have h5 : (finishRun i o (runStart i w)).task.pending = false := by
    simp [h3, resolveRec, TaskRecord.pending, terminalOf_ne_pending o]
  refine ⟨?_, ?_, h3, ?_, ?_⟩
  · simp [h1, Function.update_noteq (Ne.symm hne), doneSettle, hset]
  · simp [h1]
  · simp [h1, finishRun, freshRun]
  · exact finishRun_task_of_not_pending _ _ _ h5

/-- Claim C4 witness: re-running a live pending task settles the previous run
ABORTED, and the new run reaches COMPLETE with its returned value while the
late completion of the old run is a no-op. -/
theorem claim_C4_witness :
    (let w0 : World :=
      { task := { status := Status.PENDING, error := none, result := none,
                  hasController := true },
        alive := true,
        runs := fun _ => { sigAborted := false, handlerActive := true, settlement := none },
        active := 0 }
     ((runStart 1 w0).runs 0).settlement = some abortedSettlement ∧
     (runStart 1 w0).task.status = Status.PENDING ∧
     (finishRun 1 (BodyOutcome.ret (some 9)) (runStart 1 w0)).task =
       resolveRec (terminalOf (BodyOutcome.ret (some 9))) ∧
     ((finishRun 1 (BodyOutcome.ret (some 9)) (runStart 1 w0)).runs 1).settlement =
       some (terminalOf (BodyOutcome.ret (some 9))) ∧
     (finishRun 0 (BodyOutcome.ret (some 2))
        (finishRun 1 (BodyOutcome.ret (some 9)) (runStart 1 w0))).task =
       (finishRun 1 (BodyOutcome.ret (some 9)) (runStart 1 w0)).task) := by
  exact claim_C4 _ 1 (BodyOutcome.ret (some 9)) (BodyOutcome.ret (some 2))
    rfl rfl rfl rfl rfl rfl (by decide)

/-- Claim C5: in a nested chain A invokes B invokes C through exec, when the
body of C throws a non-cancellation error, the record and settlement of C are
FAILED with that error; exec in the body of B re-throws the error of the
settlement of C, so B fails the same way; and exec in the body of A re-throws
it again, so the record and settlement of A are FAILED with the same error. -/
theorem claim_C5 (e : Err) (he : e.isAbort = false)
    (wA wB wC : World) (iA iB iC : Nat)
    (haC : wC.alive = true) (hpC : wC.task.status = Status.PENDING)
    (hsC : (wC.runs iC).sigAborted = false) (hnC : (wC.runs iC).settlement = none)
    (haB : wB.alive = true) (hpB : wB.task.status = Status.PENDING)
    (hsB : (wB.runs iB).sigAborted = false) (hnB : (wB.runs iB).settlement = none)
    (haA : wA.alive = true) (hpA : wA.task.status = Status.PENDING)
    (hsA : (wA.runs iA).sigAborted = false) (hnA : (wA.runs iA).settlement = none) :
    (finishRun iC (BodyOutcome.thrown e) wC).task =
      { status := Status.FAILED, error := some e, result := none,
        hasController := false } ∧
    ((finishRun iC (BodyOutcome.thrown e) wC).runs iC).settlement =
      some { status := Status.FAILED, error := some e, value := none } ∧
    execAwait (Awaited.res { status := Status.FAILED, error := some e, value := none }) =
      Except.error e ∧
    (finishRun iB (BodyOutcome.thrown e) wB).task =
      { status := Status.FAILED, error := some e, result := none,
        hasController := false } ∧
    ((finishRun iB (BodyOutcome.thrown e) wB).runs iB).settlement =
      some { status := Status.FAILED, error := some e, value := none } ∧
    (finishRun iA (BodyOutcome.thrown e) wA).task =
      { status := Status.FAILED, error := some e, result := none,
        hasController := false } ∧
    ((finishRun iA (BodyOutcome.thrown e) wA).runs iA).settlement =
      some { status := Status.FAILED, error := some e, value := none } := by
  obtain ⟨hC1, hC2⟩ := finishRun_thrown wC iC e he haC hpC hsC hnC
  obtain ⟨hB1, hB2⟩ := finishRun_thrown wB iB e he haB hpB hsB hnB
  obtain ⟨hA1, hA2⟩ := finishRun_thrown wA iA e he haA hpA hsA hnA
  exact ⟨hC1, hC2, by simp [execAwait], hB1, hB2, hA1, hA2⟩

/-- Claim C5 witness: a chain of three live pending tasks where the innermost
body throws a domain error ends with all three records and settlements FAILED
with that same error. -/
theorem claim_C5_witness :
    (let w0 : World :=
      { task := { status := Status.PENDING, error := none, result := none,
                  hasController := true },
        alive := true,
        runs := fun _ => { sigAborted := false, handlerActive := true, settlement := none },
        active := 0 }
     (finishRun 0 (BodyOutcome.thrown (Err.other 3)) w0).task =
       { status := Status.FAILED, error := some (Err.other 3), result := none,
         hasController := false } ∧
     ((finishRun 0 (BodyOutcome.thrown (Err.other 3)) w0).runs 0).settlement =
       some { status := Status.FAILED, error := some (Err.other 3), value := none } ∧
     execAwait (Awaited.res
         { status := Status.FAILED, error := some (Err.other 3), value := none }) =
       Except.error (Err.other 3) ∧
     (finishRun 0 (BodyOutcome.thrown (Err.other 3)) w0).task =
       { status := Status.FAILED, error := some (Err.other 3), result := none,
         hasController := false } ∧
     ((finishRun 0 (BodyOutcome.thrown (Err.other 3)) w0).runs 0).settlement =
       some { status := Status.FAILED, error := some (Err.other 3), value := none } ∧
     (finishRun 0 (BodyOutcome.thrown (Err.other 3)) w0).task =
       { status := Status.FAILED, error := some (Err.other 3), result := none,
         hasController := false } ∧
     ((finishRun 0 (BodyOutcome.thrown (Err.other 3)) w0).runs 0).settlement =
       some { status := Status.FAILED, error := some (Err.other 3), value := none }) := by
  exact claim_C5 (Err.other 3) rfl _ _ _ 0 0 0 rfl rfl rfl rfl rfl rfl rfl rfl
    rfl rfl rfl rfl

/-- Claim C8 (amended): for every run whose body returns normally while the
record is live, still pending and not aborted, the terminal status is
COMPLETE, the returned value is recorded as the result of the record and
exposed as the value of the settlement, and a settlement can carry a value
only when its status is COMPLETE; the record-level "present iff COMPLETE"
does not hold because run() leaves the previous result in place while a new
run is PENDING. -/
theorem claim_C8 (w : World) (i : Nat) (v : Option Val)
    (halive : w.alive = true)
    (hpend : w.task.status = Status.PENDING)
    (hsig : (w.runs i).sigAborted = false)
    (hset : (w.runs i).settlement = none) :
    (finishRun i (BodyOutcome.ret v) w).task.status = Status.COMPLETE ∧
    (finishRun i (BodyOutcome.ret v) w).task.result = v ∧
    (finishRun i (BodyOutcome.ret v) w).task.error = none ∧
    ((finishRun i (BodyOutcome.ret v) w).runs i).settlement =
      some { status := Status.COMPLETE, error := none, value := v } ∧
    (∀ o : BodyOutcome, ((terminalOf o).value).isSome = true →
      (terminalOf o).status = Status.COMPLETE) := by
  refine ⟨?_, ?_, ?_, ?_, ?_⟩
  · simp [finishRun, terminalOf, hsig, hset, halive, TaskRecord.pending, hpend, resolveRec]
  · simp [finishRun, terminalOf, hsig, hset, halive, TaskRecord.pending, hpend, resolveRec]
  · simp [finishRun, terminalOf, hsig, hset, halive, TaskRecord.pending, hpend, resolveRec]
  · simp [finishRun, terminalOf, hset]
  · intro o ho
    cases o with
    | ret u => simp [terminalOf]
    | thrown e => by_cases h : e.isAbort = true <;> simp [terminalOf, h] at ho

/-- Claim C8 witness: a run returning 5 on a live pending task settles
COMPLETE with value 5 and records result 5. -/
theorem claim_C8_witness :
    (let w0 : World :=
      { task := { status := Status.PENDING, error := none, result := none,
                  hasController := true },
        alive := true,
        runs := fun _ => { sigAborted := false, handlerActive := true, settlement := none },
        active := 0 }
     (finishRun 0 (BodyOutcome.ret (some 5)) w0).task.status = Status.COMPLETE ∧
     (finishRun 0 (BodyOutcome.ret (some 5)) w0).task.result = some 5 ∧
     (finishRun 0 (BodyOutcome.ret (some 5)) w0).task.error = none ∧
     ((finishRun 0 (BodyOutcome.ret (some 5)) w0).runs 0).settlement =
       some { status := Status.COMPLETE, error := none, value := some 5 } ∧
     (∀ o : BodyOutcome, ((terminalOf o).value).isSome = true →
       (terminalOf o).status = Status.COMPLETE)) := by
  exact claim_C8 _ 0 (some 5) rfl rfl rfl rfl

/-- The terminal settlement computed from any body outcome is well-formed. -/
theorem wfs_terminalOf (o : BodyOutcome) : WFSettlement (terminalOf o) := by
  cases o with
  | ret v => simp [terminalOf, WFSettlement]
  | thrown e => by_cases h : e.isAbort = true <;> simp [terminalOf, WFSettlement, h]

/-- The settlement produced by the abort handler is well-formed. -/
theorem wfs_abortedSettlement : WFSettlement abortedSettlement := by
  simp [WFSettlement, abortedSettlement]

/-- Applying a well-formed settlement through `_resolve` yields a record
satisfying the data-model invariant. -/
theorem recordInv_resolveRec (s : AsyncTaskResult) (h : WFSettlement s) :
    RecordInv (resolveRec s) := by
  obtain ⟨h1, h2, h3⟩ := h
  refine ⟨h1, ?_, ?_⟩
  · rintro ⟨he, hr⟩
    have hc := h2 hr
    have hf := h1.mp he
    rcases hf with hf | hf <;> simp [resolveRec, hc] at hf
  · constructor
    · intro hc
      simp [resolveRec] at hc
    · intro hp
      rcases h3 with h' | h' | h' <;> simp [resolveRec, h'] at hp

/-- Aborting the controller of any run preserves the run invariants. -/
theorem runInv_abortRunId (w : World) (i : Nat) (hruns : ∀ j, RunInv (w.runs j)) :
    ∀ j, RunInv ((abortRunId i w).runs j) := by
  intro j
  by_cases hs : (w.runs i).sigAborted = true
  · have heq : (abortRunId i w).runs j = w.runs j := by simp [abortRunId, hs]
    rw [heq]
    exact hruns j
  · have hs' : (w.runs i).sigAborted = false := by simpa using hs
    by_cases hh : (w.runs i).handlerActive = true
    · have heq : (abortRunId i w).runs = Function.update w.runs i
          (doneSettle abortedSettlement { w.runs i with sigAborted := true }) := by
        simp [abortRunId, hs', hh]
      rw [heq]
      by_cases hij : j = i
      · subst hij
        rw [Function.update_same]
        constructor
        · intro s hsm
          simp only [doneSettle, Option.some.injEq] at hsm
          cases hset : (w.runs j).settlement with
          | none =>
            rw [hset] at hsm
            simp at hsm
            rw [← hsm]
            exact wfs_abortedSettlement
          | some s0 =>
            rw [hset] at hsm
            simp at hsm
            rw [← hsm]
            exact (hruns j).1 s0 hset
        · intro _
          simp [doneSettle]
      · rw [Function.update_noteq hij]
        exact hruns j
    · have hh' : (w.runs i).handlerActive = false := by simpa using hh
      have heq : (abortRunId i w).runs = Function.update w.runs i
          { w.runs i with sigAborted := true } := by
        simp [abortRunId, hs', hh']
      rw [heq]
      by_cases hij : j = i
      · subst hij
        rw [Function.update_same]
        exact ⟨fun s hsm => (hruns j).1 s hsm, fun _ => hh'⟩
      · rw [Function.update_noteq hij]
        exact hruns j

/-- The `abort` action on a live world satisfying the invariant preserves it
and always leaves the controller handle cleared. -/
theorem worldInv_taskAbort (w : World) (halive : w.alive = true) (h : WorldInv w) :
    WorldInv (taskAbort w) ∧ (taskAbort w).task.hasController = false := by
  obtain ⟨hrec, hruns, hcc⟩ := h
  by_cases hc : w.task.hasController = true
  · have heq : taskAbort w = abortRunId w.active w := by simp [taskAbort, hc]
    have hh : (w.runs w.active).handlerActive = true := hcc hc
    have hsig : (w.runs w.active).sigAborted = false := by
      cases hsv : (w.runs w.active).sigAborted
      · rfl
      · have := (hruns w.active).2 hsv
        rw [this] at hh
        exact absurd hh (by decide)
    have hpend : w.task.pending = true := by
      simp [TaskRecord.pending, hrec.2.2.mp hc]
    have htask : (abortRunId w.active w).task = resolveRec abortedSettlement := by
      simp [abortRunId, hsig, hh, halive, hpend]
    refine ⟨⟨?_, ?_, ?_⟩, ?_⟩
    · rw [heq, htask]
      exact recordInv_resolveRec _ wfs_abortedSettlement
    · rw [heq]
      exact runInv_abortRunId w w.active hruns
    · rw [heq]
      intro hx
      rw [htask] at hx
      simp [resolveRec] at hx
    · rw [heq, htask]
      rfl
  · have hc0 : w.task.hasController = false := by simpa using hc
    have heq : taskAbort w = w := by simp [taskAbort, hc0]
    rw [heq]
    exact ⟨⟨hrec, hruns, hcc⟩, hc0⟩

/-- The `reset` action on a live world preserves the invariant. -/
theorem worldInv_reset (w : World) (halive : w.alive = true) (h : WorldInv w) :
    WorldInv (reset w) := by
  obtain ⟨⟨_, hruns1, _⟩, hctrl⟩ := worldInv_taskAbort w halive h
  refine ⟨⟨?_, ?_, ?_⟩, ?_, ?_⟩
  · simp [reset]
  · rintro ⟨he, _⟩
    simp [reset] at he
  · constructor
    · intro hx
      simp only [reset] at hx
      rw [hctrl] at hx
      exact absurd hx (by decide)
    · intro hp
      simp [reset] at hp
  · intro j
    have heq : (reset w).runs j = (taskAbort w).runs j := by simp [reset]
    rw [heq]
    exact hruns1 j
  · intro hx
    simp only [reset] at hx
    rw [hctrl] at hx
    exact absurd hx (by decide)

/-- Starting a new run on a live world preserves the invariant. -/
theorem worldInv_runStart (w : World) (i : Nat) (h : WorldInv w) :
    WorldInv (runStart i w) := by
  obtain ⟨hrec, hruns, hcc⟩ := h
  refine ⟨⟨?_, ?_, ?_⟩, ?_, ?_⟩
  · simp [runStart]
  · rintro ⟨he, _⟩
    simp [runStart] at he
  · simp [runStart]
  · intro j
    by_cases hij : j = i
    · rw [hij]
      have heq : (runStart i w).runs i = freshRun := by simp [runStart]
      rw [heq]
      exact ⟨fun s hsm => (nomatch hsm), fun hx => (nomatch hx)⟩
    · by_cases hc : w.task.hasController = true
      · have heq : (runStart i w).runs j = (abortRunId w.active w).runs j := by
          simp [runStart, hc, Function.update_noteq hij]
        rw [heq]
        exact runInv_abortRunId w w.active hruns j
      · have hc0 : w.task.hasController = false := by simpa using hc
        have heq : (runStart i w).runs j = w.runs j := by
          simp [runStart, hc0, Function.update_noteq hij]
        rw [heq]
        exact hruns j
  · intro _
    simp [runStart, freshRun]

/-- Finalizing any run on a live world preserves the invariant. -/
theorem worldInv_finishRun (w : World) (i : Nat) (o : BodyOutcome)
    (halive : w.alive = true) (h : WorldInv w) : WorldInv (finishRun i o w) := by
  obtain ⟨hrec, hruns, hcc⟩ := h
  have hwfs : WFSettlement ((w.runs i).settlement.getD (terminalOf o)) := by
    cases hset : (w.runs i).settlement with
    | none => simpa [hset] using wfs_terminalOf o
    | some s0 => simpa [hset] using (hruns i).1 s0 hset
  have hruns2 : ∀ j, RunInv ((finishRun i o w).runs j) := by
    intro j
    by_cases hij : j = i
    · rw [hij]
      have heq : (finishRun i o w).runs i =
          { w.runs i with
            handlerActive := false
            settlement := some ((w.runs i).settlement.getD (terminalOf o)) } := by
        simp [finishRun]
      rw [heq]
      refine ⟨?_, fun _ => rfl⟩
      intro s hsm
      simp only [Option.some.injEq] at hsm
      rw [← hsm]
      exact hwfs
    · have heq : (finishRun i o w).runs j = w.runs j := by
        simp [finishRun, Function.update_noteq hij]
      rw [heq]
      exact hruns j
  by_cases hg : (w.alive && w.task.pending && !(w.runs i).sigAborted) = true
  · have htask : (finishRun i o w).task =
        resolveRec ((w.runs i).settlement.getD (terminalOf o)) := by
      simp [finishRun, hg]
    refine ⟨?_, hruns2, ?_⟩
    · rw [htask]
      exact recordInv_resolveRec _ hwfs
    · intro hx
      rw [htask] at hx
      simp [resolveRec] at hx
  · have hg0 : (w.alive && w.task.pending && !(w.runs i).sigAborted) = false := by
      simpa using hg
    have htask : (finishRun i o w).task = w.task := by
      simp [finishRun, hg0]
    refine ⟨?_, hruns2, ?_⟩
    · rw [htask]
      exact hrec
    · intro hx
      rw [htask] at hx
      have hactive : (finishRun i o w).active = w.active := by simp [finishRun]
      rw [hactive]
      by_cases hia : w.active = i
      · have hh := hcc hx
        rw [hia] at hh
        have hsg : (w.runs i).sigAborted = false := by
          cases hsv : (w.runs i).sigAborted
          · rfl
          · have := (hruns i).2 hsv
            rw [this] at hh
            exact absurd hh (by decide)
        have hpend : w.task.pending = true := by
          simp [TaskRecord.pending, hrec.2.2.mp hx]
        have : (w.alive && w.task.pending && !(w.runs i).sigAborted) = true := by
          simp [halive, hpend, hsg]
        rw [this] at hg0
        exact absurd hg0 (by decide)
      · have heq : (finishRun i o w).runs w.active = w.runs w.active := by
          simp [finishRun, Function.update_noteq hia]
        rw [heq]
        exact hcc hx

/-- Claim C9: every operation on a live task record - starting a run, abort,
reset, and run finalization - preserves the data-model invariant: the error
field is populated iff the status is FAILED or ABORTED, at most one of error
and result is populated, and the controller handle is present iff the status
is PENDING. -/
theorem claim_C9 (op : Op) (w : World) (halive : w.alive = true) (h : WorldInv w) :
    WorldInv (applyOp op w) := by
  cases op with
  | start i => exact worldInv_runStart w i h
  | abortAct => exact (worldInv_taskAbort w halive h).1
  | resetAct => exact worldInv_reset w halive h
  | finish i o => exact worldInv_finishRun w i o halive h

/-- A live pending world used to witness the invariant preservation. -/
def invWitnessWorld : World :=
  { task := { status := Status.PENDING, error := none, result := none,
              hasController := true },
    alive := true,
    runs := fun _ => { sigAborted := false, handlerActive := true, settlement := none },
    active := 0 }

/-- The witness world satisfies the invariant. -/
theorem invWitnessWorld_inv : WorldInv invWitnessWorld := by
  refine ⟨?_, ?_, ?_⟩
  · exact ⟨by decide, by decide, by decide⟩
  · intro j
    exact ⟨fun s hsm => (nomatch hsm), fun hx => (nomatch hx)⟩
  · intro _
    rfl

/-- Claim C9 witness: aborting the live pending witness world preserves the
data-model invariant. -/
theorem claim_C9_witness :
    invWitnessWorld.alive = true ∧ WorldInv invWitnessWorld ∧
    WorldInv (applyOp Op.abortAct invWitnessWorld) := by
  exact ⟨rfl, invWitnessWorld_inv, claim_C9 Op.abortAct invWitnessWorld rfl invWitnessWorld_inv⟩

end MstAsyncTask
